import Mathlib

/-!
Verification of the off-policy rollout collection core of
`torchy_baselines/common/base_class.py` (classes `BaseRLModel` and
`OffPolicyRLModel`).

The embedding is a shallow one over exact rationals (the source uses
float32 tensors; every claimed identity is algebraic, so `ℚ` is the
standard exact model).  External collaborators (environment, policy,
callback, noise processes, `VecNormalize` wrapper, value network) are
modelled as oracle functions indexed by the rollout step counter: one
callback call, one action selection and one `env.step` happen per inner
iteration, so the call index of each oracle equals `total_steps` at the
time of the call.  Stateful execution is explicit state passing with a
fuel parameter for the two `while` loops (`none` = fuel exhausted).

Side effects on external objects (actions sent to the environment,
`actor.reset_noise()` calls, action queries, replay-buffer `add` calls,
raw `env.step` results) are recorded as explicit traces in the state, so
that theorems can speak about what was sent where.  Display-only side
effects (the `logger` block, `_update_info_buffer`, and
`action_noise.reset()` at episode boundaries) do not feed back into any
value the claims mention and are elided.
-/

namespace Torchy

/-- Coercion of a numpy boolean into the arithmetic `1.0 - done` uses. -/
def b2q (b : Bool) : ℚ := if b then 1 else 0

/-- `np.clip(x, lo, hi)`. -/
def npClip (x lo hi : ℚ) : ℚ := min (max x lo) hi

/-- `BaseRLModel.scale_action` (base_class.py:151-159):
rescale from `[low, high]` to `[-1, 1]` via `2.0 * ((action - low) / (high - low)) - 1.0`. -/
def scale_action (low high action : ℚ) : ℚ :=
  2 * ((action - low) / (high - low)) - 1

/-- `BaseRLModel.unscale_action` (base_class.py:161-169):
rescale from `[-1, 1]` to `[low, high]` via `low + (0.5 * (scaled_action + 1.0) * (high - low))`. -/
def unscale_action (low high scaled_action : ℚ) : ℚ :=
  low + ((1 / 2) * (scaled_action + 1) * (high - low))

/-- `np.mean` of a nonempty list (exact model). -/
def listMean (l : List ℚ) : ℚ := l.sum / l.length

/-- Result of one `env.step` call (the `infos` payload only feeds the
display-only episode-statistics buffers and is elided). -/
structure StepResult where
  new_obs : ℚ
  reward : ℚ
  done : Bool
deriving DecidableEq, Repr, Inhabited

/-- One `replay_buffer.add(obs_, new_obs_, clipped_action, reward_, done)` record. -/
structure Transition where
  obs : ℚ
  next_obs : ℚ
  action : ℚ
  reward : ℚ
  done : Bool
deriving DecidableEq, Repr, Inhabited

/-- How the action of one step was obtained: uniform sampling from the
action space (warm-up) or a policy query with a deterministic flag. -/
inductive ActionQuery where
  | random (k : Nat)
  | policy (obs : ℚ) (deterministic : Bool)
deriving DecidableEq, Repr, Inhabited

/-- Whether the query bypassed the policy. -/
def ActionQuery.isRandom : ActionQuery → Bool
  | .random _ => true
  | .policy _ _ => false

/-- The deterministic flag of a policy query (`none` for a random draw). -/
def ActionQuery.detFlag : ActionQuery → Option Bool
  | .random _ => none
  | .policy _ d => some d

/-- `self.rollout_data` as built during collection: the five parallel
lists appended to at base_class.py:825-832. -/
structure RolloutData where
  observations : List ℚ
  actions : List ℚ
  rewards : List ℚ
  dones : List Bool
  values : List ℚ
deriving DecidableEq, Repr, Inhabited

/-- Model configuration: the `self.*` fields and call arguments of
`collect_rollouts` that steer control flow. -/
structure Config where
  use_sde : Bool
  use_sde_at_warmup : Bool
  on_policy_exploration : Bool
  sde_sample_freq : Int
  learning_starts : Int
  gamma : ℚ
  low : ℚ
  high : ℚ
  has_vec_normalize : Bool
  has_action_noise : Bool
  has_replay_buffer : Bool

/-- External collaborators as deterministic oracles.  `callback k` is
the result of the `k`-th in-loop `callback()` call (`none` models a
Python `None` return); `origObs k` is what
`VecNormalize.get_original_obs()` returns after `k` environment steps. -/
structure Oracles where
  callback : Nat → Option Bool
  sample : Nat → ℚ
  predict : ℚ → Bool → ℚ
  noiseVal : Nat → ℚ
  envStep : Nat → ℚ → StepResult
  origObs : Nat → ℚ
  origReward : Nat → ℚ
  vf : ℚ → ℚ

/-- The mutable state threaded through the rollout loops, together with
explicit traces of the calls made on external objects. -/
structure LoopState where
  num_timesteps : Nat
  total_steps : Nat
  total_episodes : Nat
  obs : ℚ
  obs_ : ℚ
  lastDone : Bool
  episode_rewards : List ℚ
  episode_lengths : List Nat
  buffer : List Transition
  rollout_data : Option RolloutData
  inLoopResets : List Nat
  queries : List (Nat × ActionQuery)
  appliedActions : List ℚ
  scaledActions : List ℚ
  rawTrace : List StepResult
deriving DecidableEq, Repr, Inhabited

/-- Warm-up test of base_class.py:783:
`self.num_timesteps < learning_starts and not (self.use_sde and self.use_sde_at_warmup)`. -/
def warmupCond (cfg : Config) (num_timesteps : Nat) : Bool :=
  decide ((num_timesteps : Int) < cfg.learning_starts) &&
    !(cfg.use_sde && cfg.use_sde_at_warmup)

/-- In-loop noise-resampling test of base_class.py:778:
`self.use_sde and self.sde_sample_freq > 0 and n_steps % self.sde_sample_freq == 0`.
Note that the source tests the constant call argument `n_steps`
(the step budget), not a running counter.  Python `%` with a positive
right operand agrees with `Int.emod`. -/
def sdeResampleCond (cfg : Config) (n_steps : Int) : Bool :=
  cfg.use_sde && decide (0 < cfg.sde_sample_freq) &&
    decide (n_steps % cfg.sde_sample_freq = 0)

/-- One iteration of the inner `while not done` loop of
`OffPolicyRLModel.collect_rollouts` (base_class.py:778-845), after the
callback check.  Returns the new state, the `done` flag and the raw
reward of the step.

Faithfulness notes.  The dead store `obs_ = obs` of the no-wrapper
branch at base_class.py:821 is dropped (`obs_` is re-assigned before
every later read on that path).  On the path `_vec_normalize_env` active
and `replay_buffer is None` the source reads the unbound `new_obs_` at
base_class.py:839 (a `NameError`); the embedding uses the wrapper value
`origObs (total_steps + 1)`, which is the value `new_obs_` holds
whenever it is bound.  No claim depends on that path. -/
def collectStep (cfg : Config) (orc : Oracles) (n_steps : Int)
    (s : LoopState) : LoopState × Bool × ℚ :=
  let inLoopResets' :=
    if sdeResampleCond cfg n_steps then s.inLoopResets ++ [s.total_steps]
    else s.inLoopResets
  let warmup := warmupCond cfg s.num_timesteps
  let query : ActionQuery :=
    if warmup then .random s.total_steps else .policy s.obs (!cfg.use_sde)
  let unscaled_action :=
    if warmup then orc.sample s.total_steps
    else orc.predict s.obs (!cfg.use_sde)
  let scaled_action := scale_action cfg.low cfg.high unscaled_action
  let clipped0 := if cfg.use_sde then npClip scaled_action (-1) 1 else scaled_action
  let clipped_action :=
    if cfg.has_action_noise then
      npClip (clipped0 + orc.noiseVal s.total_steps) (-1) 1
    else clipped0
  let res := orc.envStep s.total_steps (unscale_action cfg.low cfg.high clipped_action)
  let buffer' :=
    if cfg.has_replay_buffer then
      if cfg.has_vec_normalize then
        s.buffer ++ [⟨s.obs_, orc.origObs (s.total_steps + 1), clipped_action,
                      orc.origReward s.total_steps, res.done⟩]
      else
        s.buffer ++ [⟨s.obs, res.new_obs, clipped_action, res.reward, res.done⟩]
    else s.buffer
  let rollout_data' :=
    match s.rollout_data with
    | none => none
    | some rd =>
      some ⟨rd.observations ++ [s.obs], rd.actions ++ [scaled_action],
            rd.rewards ++ [res.reward], rd.dones ++ [res.done],
            rd.values ++ [orc.vf s.obs]⟩
  let obs_' := if cfg.has_vec_normalize then orc.origObs (s.total_steps + 1) else s.obs_
  ({ num_timesteps := s.num_timesteps + 1
     total_steps := s.total_steps + 1
     total_episodes := s.total_episodes
     obs := res.new_obs
     obs_ := obs_'
     lastDone := res.done
     episode_rewards := s.episode_rewards
     episode_lengths := s.episode_lengths
     buffer := buffer'
     rollout_data := rollout_data'
     inLoopResets := inLoopResets'
     queries := s.queries ++ [(s.num_timesteps, query)]
     appliedActions := s.appliedActions ++ [clipped_action]
     scaledActions := s.scaledActions ++ [scaled_action]
     rawTrace := s.rawTrace ++ [res] }, res.done, res.reward)

/-- The inner `while not done` loop (base_class.py:771-845).
`Sum.inl` is the early return on `callback() is False`
(base_class.py:773-776); `Sum.inr` is normal loop exit, carrying the
state, `episode_reward`, `episode_timesteps` and the final `done`. -/
def collectInner (cfg : Config) (orc : Oracles) (n_steps : Int) :
    Nat → LoopState → ℚ → Nat →
      Option (LoopState ⊕ (LoopState × ℚ × Nat × Bool))
  | 0, _, _, _ => none
  | fuel + 1, s, episode_reward, episode_timesteps =>
    if orc.callback s.total_steps = some false then
      some (Sum.inl s)
    else
      let out := collectStep cfg orc n_steps s
      let s' := out.1
      let done := out.2.1
      let episode_reward' := episode_reward + out.2.2
      let episode_timesteps' := episode_timesteps + 1
      if (decide (0 < n_steps) && decide (n_steps ≤ (s'.total_steps : Int))) || done then
        some (Sum.inr (s', episode_reward', episode_timesteps', done))
      else
        collectInner cfg orc n_steps fuel s' episode_reward' episode_timesteps'

/-- The outer `while total_steps < n_steps or total_episodes < n_episodes`
loop (base_class.py:767-872).  The returned `Bool` is the
`continue_training` flag: `false` exactly on the callback-stop early
return.  The episode-boundary block (base_class.py:847-872) increments
the episode counter and appends the episode statistics; its
`action_noise.reset()` and logging calls touch nothing the state
tracks. -/
def collectOuter (cfg : Config) (orc : Oracles) (n_steps n_episodes : Int) :
    Nat → LoopState → Option (LoopState × Bool)
  | 0, _ => none
  | fuel + 1, s =>
    if decide ((s.total_steps : Int) < n_steps) ||
        decide ((s.total_episodes : Int) < n_episodes) then
      match collectInner cfg orc n_steps (fuel + 1) s 0 0 with
      | none => none
      | some (Sum.inl s') => some (s', false)
      | some (Sum.inr (s', episode_reward, episode_timesteps, done)) =>
        let s'' :=
          if done then
            { s' with total_episodes := s'.total_episodes + 1,
                      episode_rewards := s'.episode_rewards ++ [episode_reward],
                      episode_lengths := s'.episode_lengths ++ [episode_timesteps] }
          else s'
        collectOuter cfg orc n_steps n_episodes fuel s''
    else
      some (s, true)

/-- The backward return recursion of base_class.py:885-894, as a
function of the zipped `(reward, done)` snapshot lists, the final value
of the loop variable `done` and the bootstrap value
`vf_net(final observation)`.  The last index gets
`reward + (1 - done) * next_value`; index `i < T-1` gets
`reward[i] + gamma * return[i+1] * (1 - dones[i+1])`. -/
def computeReturns (gamma : ℚ) (finalDone : Bool) (nextValue : ℚ) :
    List (ℚ × Bool) → List ℚ
  | [] => []
  | [(r, _)] => [r + (1 - b2q finalDone) * nextValue]
  | (r, _) :: (r2, d2) :: rest =>
    let tail := computeReturns gamma finalDone nextValue ((r2, d2) :: rest)
    (r + gamma * tail.headD 0 * (1 - b2q d2)) :: tail

/-- The snapshot after the post-processing block (base_class.py:877-895):
the collected lists plus `returns` and `advantage = returns - values`
(elementwise tensor subtraction). -/
structure ProcessedData where
  data : RolloutData
  returns : List ℚ
  advantage : List ℚ
deriving DecidableEq, Repr, Inhabited

/-- Post-processing of a snapshot (base_class.py:884-895). -/
def postProcess (gamma : ℚ) (rd : RolloutData) (finalDone : Bool)
    (nextValue : ℚ) : ProcessedData :=
  let rets := computeReturns gamma finalDone nextValue (rd.rewards.zip rd.dones)
  { data := rd
    returns := rets
    advantage := rets.zipWith (fun a b => a - b) rd.values }

/-- The value returned by `collect_rollouts`, together with the final
explicit state and the counts of external lifecycle calls the source
makes on the two exit paths. -/
structure RolloutResult where
  mean_reward : ℚ
  total_steps : Nat
  total_episodes : Nat
  last_obs : Option ℚ
  continue_training : Bool
  final : LoopState
  processed : Option ProcessedData
  onRolloutEndCalls : Nat
deriving DecidableEq, Repr, Inhabited

/-- The state at entry of the outer loop: the initialization section of
`collect_rollouts` (base_class.py:747-765).  `nt0` is the entry value of
the global counter `self.num_timesteps`; `obs0` the `obs` argument.
The snapshot dict is created only when `self.use_sde` and
`self.on_policy_exploration` are both set (base_class.py:758-762). -/
def initState (cfg : Config) (orc : Oracles) (nt0 : Nat) (obs0 : ℚ) : LoopState :=
  { num_timesteps := nt0
    total_steps := 0
    total_episodes := 0
    obs := obs0
    obs_ := if cfg.has_vec_normalize then orc.origObs 0 else 0
    lastDone := false
    episode_rewards := []
    episode_lengths := []
    buffer := []
    rollout_data :=
      if cfg.use_sde && cfg.on_policy_exploration then
        some ⟨[], [], [], [], []⟩
      else none
    inLoopResets := []
    queries := []
    appliedActions := []
    scaledActions := []
    rawTrace := [] }

/-- `OffPolicyRLModel.collect_rollouts` (base_class.py:716-899).
On the callback-stop path the source returns
`0.0, total_steps, total_episodes, None, continue_training` without
calling `callback.on_rollout_end()` and without post-processing; on the
normal path it post-processes any snapshot, calls `on_rollout_end()`
once and returns the mean episode reward (or `0.0` when no episode
finished), the counters, the last observation and
`continue_training = True`. -/
def collect_rollouts (cfg : Config) (orc : Oracles)
    (n_episodes n_steps : Int) (nt0 : Nat) (obs0 : ℚ) (fuel : Nat) :
    Option RolloutResult :=
  match collectOuter cfg orc n_steps n_episodes fuel (initState cfg orc nt0 obs0) with
  | none => none
  | some (s, false) =>
    some { mean_reward := 0
           total_steps := s.total_steps
           total_episodes := s.total_episodes
           last_obs := none
           continue_training := false
           final := s
           processed := none
           onRolloutEndCalls := 0 }
  | some (s, true) =>
    some { mean_reward :=
             if 0 < s.total_episodes then listMean s.episode_rewards else 0
           total_steps := s.total_steps
           total_episodes := s.total_episodes
           last_obs := some s.obs
           continue_training := true
           final := s
           processed :=
             s.rollout_data.map (fun rd =>
               postProcess cfg.gamma rd s.lastDone (orc.vf s.obs))
           onRolloutEndCalls := 1 }

/-! ### Generic facts about the embedded definitions -/

/-- `warmupCond` decides exactly the source's warm-up condition. -/
theorem warmupCond_iff (cfg : Config) (nt : Nat) :
    warmupCond cfg nt = true ↔
      ((nt : Int) < cfg.learning_starts ∧
        ¬(cfg.use_sde = true ∧ cfg.use_sde_at_warmup = true)) := by
  simp only [warmupCond, Bool.and_eq_true, Bool.not_eq_true', decide_eq_true_eq,
    Bool.and_eq_false_iff]
  constructor
  · rintro ⟨h1, h2⟩
    exact ⟨h1, by rcases h2 with h | h <;> simp [h]⟩
  · rintro ⟨h1, h2⟩
    refine ⟨h1, ?_⟩
    by_cases hs : cfg.use_sde = true
    · by_cases hw : cfg.use_sde_at_warmup = true
      · exact absurd ⟨hs, hw⟩ h2
      · right; simpa using hw
    · left; simpa using hs

/-- Elementwise access of the tensor subtraction `returns - values`. -/
theorem zipWith_sub_getD (l₁ l₂ : List ℚ) (i : Nat)
    (h : i < (l₁.zipWith (fun a b => a - b) l₂).length) :
    (l₁.zipWith (fun a b => a - b) l₂).getD i 0 = l₁.getD i 0 - l₂.getD i 0 := by
  induction l₁ generalizing l₂ i with
  | nil => simp at h
  | cons a t ih =>
    cases l₂ with
    | nil => simp at h
    | cons b t₂ =>
      cases i with
      | zero => simp
      | succ j =>
        simp only [List.zipWith_cons_cons, List.length_cons] at h
        simpa using ih t₂ j (by omega)

/-- `computeReturns` yields one return per snapshot entry. -/
theorem computeReturns_length (gamma : ℚ) (finalDone : Bool) (nextValue : ℚ) :
    ∀ l : List (ℚ × Bool),
      (computeReturns gamma finalDone nextValue l).length = l.length
  | [] => rfl
  | [(_, _)] => rfl
  | (_, _) :: (r2, d2) :: rest => by
    simp only [computeReturns, List.length_cons]
    rw [computeReturns_length gamma finalDone nextValue ((r2, d2) :: rest)]
    simp

/-! ### C8: action transform round trip -/

/-- Claim C8: for bounds `low < high` and any action `a` in `[low, high]`,
`unscale_action (scale_action a) = a`.  Both functions are pure; over
exact arithmetic the round trip is exact (the source's float32 version
agrees up to rounding). -/
theorem unscale_scale_roundtrip (low high a : ℚ)
    (hlt : low < high) (hla : low ≤ a) (hah : a ≤ high) :
    unscale_action low high (scale_action low high a) = a := by
  have hne : high - low ≠ 0 := sub_ne_zero.mpr (ne_of_gt hlt)
  unfold unscale_action scale_action
  field_simp

/-- Witness for C8 at `low = -2`, `high = 4`, `a = 1`. -/
theorem unscale_scale_roundtrip_witness :
    ((-2 : ℚ) < 4 ∧ (-2 : ℚ) ≤ 1 ∧ (1 : ℚ) ≤ 4) ∧
      unscale_action (-2) 4 (scale_action (-2) 4 1) = 1 :=
  ⟨⟨by norm_num, by norm_num, by norm_num⟩,
    unscale_scale_roundtrip (-2) 4 1 (by norm_num) (by norm_num) (by norm_num)⟩

/-! ### C4: the backward return recursion -/

/-- Claim C4: for a nonempty snapshot of length `T`, the computed
returns satisfy `return[T-1] = reward[T-1] + (1 - done_at_rollout_end) * next_value`
and, for `i < T-1`,
`return[i] = reward[i] + gamma * return[i+1] * (1 - done[i+1])`,
as produced by the backward recursion of base_class.py:885-894. -/
theorem computeReturns_spec (gamma nextValue : ℚ) (finalDone : Bool)
    (l : List (ℚ × Bool)) (hne : l ≠ []) :
    (computeReturns gamma finalDone nextValue l).length = l.length ∧
    (computeReturns gamma finalDone nextValue l).getD (l.length - 1) 0 =
      (l.getD (l.length - 1) (0, false)).1 + (1 - b2q finalDone) * nextValue ∧
    (∀ i, i + 1 < l.length →
      (computeReturns gamma finalDone nextValue l).getD i 0 =
        (l.getD i (0, false)).1 +
          gamma * ((computeReturns gamma finalDone nextValue l).getD (i + 1) 0) *
            (1 - b2q (l.getD (i + 1) (0, false)).2)) := by
  induction l with
  | nil => exact absurd rfl hne
  | cons x tl ih =>
    obtain ⟨r, d⟩ := x
    cases tl with
    | nil =>
      refine ⟨rfl, by simp [computeReturns], ?_⟩
      intro i hi
      simp at hi
    | cons y rest =>
      obtain ⟨r2, d2⟩ := y
      obtain ⟨ihlen, ihlast, ihrec⟩ := ih (by simp)
      have hlen : (computeReturns gamma finalDone nextValue ((r2, d2) :: rest)).length
          = ((r2, d2) :: rest).length := ihlen
      have hunf : computeReturns gamma finalDone nextValue ((r, d) :: (r2, d2) :: rest)
          = (r + gamma * (computeReturns gamma finalDone nextValue ((r2, d2) :: rest)).headD 0
                * (1 - b2q d2)) :: computeReturns gamma finalDone nextValue ((r2, d2) :: rest) := by
        simp [computeReturns]
      refine ⟨?_, ?_, ?_⟩
      · rw [hunf]; simp [hlen]
      · rw [hunf]
        have hpos : 0 < ((r2, d2) :: rest).length := by simp
        have : ((r, d) :: (r2, d2) :: rest).length - 1
            = (((r2, d2) :: rest).length - 1) + 1 := by
          simp only [List.length_cons]
          omega
        rw [this, List.getD_cons_succ, List.getD_cons_succ]
        exact ihlast
      · intro i hi
        rw [hunf]
        cases i with
        | zero =>
          have htail : computeReturns gamma finalDone nextValue ((r2, d2) :: rest) ≠ [] := by
            intro hnil
            rw [hnil] at hlen
            simp at hlen
          obtain ⟨h0, t0, heq⟩ := List.exists_cons_of_ne_nil htail
          rw [heq]
          simp [List.headD]
        | succ j =>
          rw [List.getD_cons_succ, List.getD_cons_succ, List.getD_cons_succ,
            List.getD_cons_succ]
          exact ihrec j (by simpa using Nat.lt_of_succ_lt_succ hi)

/-- Witness for C4: singleton snapshot `reward = 5`, terminal step,
`gamma = 0.9`, bootstrap value `7`: the return is `5` (the terminal
kills the bootstrap). -/
theorem computeReturns_spec_witness :
    ([((5 : ℚ), true)] ≠ ([] : List (ℚ × Bool))) ∧
      (computeReturns (9 / 10) true 7 [((5 : ℚ), true)]).getD 0 0 = 5 := by
  refine ⟨by simp, ?_⟩
  have h := computeReturns_spec (9 / 10) 7 true [((5 : ℚ), true)] (by simp)
  have h2 := h.2.1
  simpa [b2q] using h2

/-! ### Inversion of the two exit paths of `collect_rollouts` -/

/-- Every successful call went through the outer loop and exited either
on the callback-stop path or the normal path; the returned record is
determined by the exit state. -/
theorem collect_rollouts_inv {cfg : Config} {orc : Oracles}
    {nE nS : Int} {nt0 : Nat} {obs0 : ℚ} {fuel : Nat} {r : RolloutResult}
    (h : collect_rollouts cfg orc nE nS nt0 obs0 fuel = some r) :
    ∃ s, (collectOuter cfg orc nS nE fuel (initState cfg orc nt0 obs0) = some (s, false) ∧
            r = { mean_reward := 0, total_steps := s.total_steps,
                  total_episodes := s.total_episodes, last_obs := none,
                  continue_training := false, final := s, processed := none,
                  onRolloutEndCalls := 0 }) ∨
          (collectOuter cfg orc nS nE fuel (initState cfg orc nt0 obs0) = some (s, true) ∧
            r = { mean_reward :=
                    if 0 < s.total_episodes then listMean s.episode_rewards else 0,
                  total_steps := s.total_steps,
                  total_episodes := s.total_episodes, last_obs := some s.obs,
                  continue_training := true, final := s,
                  processed := s.rollout_data.map (fun rd =>
                    postProcess cfg.gamma rd s.lastDone (orc.vf s.obs)),
                  onRolloutEndCalls := 1 }) := by
  unfold collect_rollouts at h
  cases hout : collectOuter cfg orc nS nE fuel (initState cfg orc nt0 obs0) with
  | none => rw [hout] at h; exact absurd h (by simp)
  | some p =>
    obtain ⟨s, b⟩ := p
    rw [hout] at h
    cases b with
    | false =>
      refine ⟨s, Or.inl ⟨rfl, ?_⟩⟩
      simpa using h.symm
    | true =>
      refine ⟨s, Or.inr ⟨rfl, ?_⟩⟩
      simpa using h.symm

/-! ### C5: advantage identity -/

/-- Elementwise content of the post-processed `advantage` tensor. -/
theorem postProcess_advantage (gamma nextValue : ℚ) (finalDone : Bool)
    (rd : RolloutData) (i : Nat)
    (h : i < (postProcess gamma rd finalDone nextValue).advantage.length) :
    (postProcess gamma rd finalDone nextValue).advantage.getD i 0 =
      (postProcess gamma rd finalDone nextValue).returns.getD i 0 -
        rd.values.getD i 0 := by
  unfold postProcess at h ⊢
  exact zipWith_sub_getD _ _ i h

/-- Claim C5: after the estimator runs, `advantage[i] = returns[i] - values[i]`
for every index, where `values` are the per-step estimates captured in
the snapshot. -/
theorem advantage_eq_return_sub_value {cfg : Config} {orc : Oracles}
    {nE nS : Int} {nt0 : Nat} {obs0 : ℚ} {fuel : Nat} {r : RolloutResult}
    {p : ProcessedData}
    (h : collect_rollouts cfg orc nE nS nt0 obs0 fuel = some r)
    (hp : r.processed = some p) :
    ∀ i, i < p.advantage.length →
      p.advantage.getD i 0 = p.returns.getD i 0 - p.data.values.getD i 0 := by
  obtain ⟨s, hcase | hcase⟩ := collect_rollouts_inv h
  · rw [hcase.2] at hp
    exact absurd hp (by simp)
  · rw [hcase.2] at hp
    simp only [Option.map_eq_some'] at hp
    obtain ⟨rd, _, hpeq⟩ := hp
    intro i hi
    rw [← hpeq] at hi ⊢
    have := postProcess_advantage cfg.gamma (orc.vf s.obs) s.lastDone rd i hi
    simpa [postProcess] using this

/-! ### C10: early-stop path skips post-processing and `on_rollout_end` -/

/-- Claim C10: when the per-step callback signals stop, the collector
returns with `on_rollout_end` never invoked, no post-processing
performed, and `None` in the observation slot; on every non-stopped
invocation `on_rollout_end` is invoked exactly once. -/
theorem stop_skips_rollout_end_and_postprocessing {cfg : Config}
    {orc : Oracles} {nE nS : Int} {nt0 : Nat} {obs0 : ℚ} {fuel : Nat}
    {r : RolloutResult}
    (h : collect_rollouts cfg orc nE nS nt0 obs0 fuel = some r) :
    (r.continue_training = false →
       r.onRolloutEndCalls = 0 ∧ r.processed = none ∧ r.last_obs = none) ∧
    (r.continue_training = true → r.onRolloutEndCalls = 1) := by
  obtain ⟨s, hcase | hcase⟩ := collect_rollouts_inv h
  · rw [hcase.2]
    refine ⟨fun _ => ⟨rfl, rfl, rfl⟩, fun hc => ?_⟩
    simp at hc
  · rw [hcase.2]
    refine ⟨fun hc => ?_, fun _ => rfl⟩
    simp at hc

/-! ### C1: the disjunctive loop condition -/

/-- The outer loop hands back `continue_training = true` only once its
`while total_steps < n_steps or total_episodes < n_episodes` guard is
false. -/
theorem collectOuter_true_notGuard {cfg : Config} {orc : Oracles} {nS nE : Int} :
    ∀ fuel s s', collectOuter cfg orc nS nE fuel s = some (s', true) →
      ¬((s'.total_steps : Int) < nS ∨ (s'.total_episodes : Int) < nE)
  | 0, s, s', h => by simp [collectOuter] at h
  | fuel + 1, s, s', h => by
    rw [collectOuter] at h
    by_cases hg : (decide ((s.total_steps : Int) < nS) ||
        decide ((s.total_episodes : Int) < nE)) = true
    · rw [if_pos hg] at h
      cases hin : collectInner cfg orc nS (fuel + 1) s 0 0 with
      | none => rw [hin] at h; simp at h
      | some out =>
        rw [hin] at h
        cases out with
        | inl s'' => simp at h
        | inr t =>
          obtain ⟨s'', epR, epS, dn⟩ := t
          simp only at h
          exact collectOuter_true_notGuard fuel _ s' h
    · rw [if_neg hg] at h
      simp only [Option.some.injEq, Prod.mk.injEq] at h
      obtain ⟨rfl, -⟩ := h
      simp only [Bool.or_eq_true, decide_eq_true_eq, not_or] at hg
      exact fun hc => hc.elim hg.1 hg.2

/-- Claim C1: with finite positive budgets the loop keeps running while
at least one budget is unmet, so a normal (non-callback-stop) return
has both `total_steps ≥ n_steps` and `total_episodes ≥ n_episodes`. -/
theorem normal_return_meets_both_budgets {cfg : Config} {orc : Oracles}
    {nE nS : Int} {nt0 : Nat} {obs0 : ℚ} {fuel : Nat} {r : RolloutResult}
    (h : collect_rollouts cfg orc nE nS nt0 obs0 fuel = some r)
    (hc : r.continue_training = true) (hS : 0 < nS) (hE : 0 < nE) :
    nS ≤ (r.total_steps : Int) ∧ nE ≤ (r.total_episodes : Int) := by
  obtain ⟨s, hcase | hcase⟩ := collect_rollouts_inv h
  · rw [hcase.2] at hc
    simp at hc
  · have hng := collectOuter_true_notGuard _ _ _ hcase.1
    rw [hcase.2]
    simp only [not_or, not_lt] at hng
    exact ⟨hng.1, hng.2⟩

/-! ### C7: the callback-stop contract -/

/-- The inner loop takes the early-return branch only on a
`callback() is False` result, at call index `total_steps` of the state
it hands back unchanged. -/
theorem collectInner_inl_callback {cfg : Config} {orc : Oracles} {nS : Int} :
    ∀ fuel s epR epS s', collectInner cfg orc nS fuel s epR epS = some (Sum.inl s') →
      orc.callback s'.total_steps = some false
  | 0, s, epR, epS, s', h => by simp [collectInner] at h
  | fuel + 1, s, epR, epS, s', h => by
    rw [collectInner] at h
    by_cases hc : orc.callback s.total_steps = some false
    · rw [if_pos hc] at h
      simp only [Option.some.injEq, Sum.inl.injEq] at h
      rw [← h]
      exact hc
    · rw [if_neg hc] at h
      simp only at h
      split at h
      · simp at h
      · exact collectInner_inl_callback fuel _ _ _ s' h

/-- The outer loop reports `continue_training = false` only via the
inner loop's early return, so the exit state saw the callback answer
`False` at call index `total_steps`. -/
theorem collectOuter_false_callback {cfg : Config} {orc : Oracles} {nS nE : Int} :
    ∀ fuel s s', collectOuter cfg orc nS nE fuel s = some (s', false) →
      orc.callback s'.total_steps = some false
  | 0, s, s', h => by simp [collectOuter] at h
  | fuel + 1, s, s', h => by
    rw [collectOuter] at h
    by_cases hg : (decide ((s.total_steps : Int) < nS) ||
        decide ((s.total_episodes : Int) < nE)) = true
    · rw [if_pos hg] at h
      cases hin : collectInner cfg orc nS (fuel + 1) s 0 0 with
      | none => rw [hin] at h; simp at h
      | some out =>
        rw [hin] at h
        cases out with
        | inl s'' =>
          simp only [Option.some.injEq, Prod.mk.injEq] at h
          rw [← h.1]
          exact collectInner_inl_callback (fuel + 1) s 0 0 s'' hin
        | inr t =>
          obtain ⟨s'', epR, epS, dn⟩ := t
          simp only at h
          exact collectOuter_false_callback fuel _ s' h
    · rw [if_neg hg] at h
      simp at h

/-- The inner-loop or early-return state carried by either outcome. -/
def stateOf : LoopState ⊕ (LoopState × ℚ × Nat × Bool) → LoopState
  | Sum.inl s => s
  | Sum.inr t => t.1

/-- A property preserved by one collection step is preserved by the
inner loop (on both outcomes). -/
theorem collectInner_preserves {cfg : Config} {orc : Oracles} {nS : Int}
    (P : LoopState → Prop)
    (hstep : ∀ s, P s → P (collectStep cfg orc nS s).1) :
    ∀ fuel s epR epS out, collectInner cfg orc nS fuel s epR epS = some out →
      P s → P (stateOf out)
  | 0, s, epR, epS, out, h => by simp [collectInner] at h
  | fuel + 1, s, epR, epS, out, h => by
    intro hP
    rw [collectInner] at h
    by_cases hc : orc.callback s.total_steps = some false
    · rw [if_pos hc] at h
      simp only [Option.some.injEq] at h
      rw [← h]
      exact hP
    · rw [if_neg hc] at h
      simp only at h
      split at h
      · simp only [Option.some.injEq] at h
        rw [← h]
        exact hstep s hP
      · exact collectInner_preserves P hstep fuel _ _ _ out h (hstep s hP)

/-- A property preserved by one collection step and by the
episode-boundary bookkeeping is preserved by the whole outer loop. -/
theorem collectOuter_preserves {cfg : Config} {orc : Oracles} {nS nE : Int}
    (P : LoopState → Prop)
    (hstep : ∀ s, P s → P (collectStep cfg orc nS s).1)
    (hep : ∀ (s : LoopState) (a : ℚ) (b : Nat), P s →
      P { s with total_episodes := s.total_episodes + 1,
                 episode_rewards := s.episode_rewards ++ [a],
                 episode_lengths := s.episode_lengths ++ [b] }) :
    ∀ fuel s s' bb, collectOuter cfg orc nS nE fuel s = some (s', bb) →
      P s → P s'
  | 0, s, s', bb, h => by simp [collectOuter] at h
  | fuel + 1, s, s', bb, h => by
    intro hP
    rw [collectOuter] at h
    by_cases hg : (decide ((s.total_steps : Int) < nS) ||
        decide ((s.total_episodes : Int) < nE)) = true
    · rw [if_pos hg] at h
      cases hin : collectInner cfg orc nS (fuel + 1) s 0 0 with
      | none => rw [hin] at h; simp at h
      | some out =>
        rw [hin] at h
        have hPout := collectInner_preserves P hstep (fuel + 1) s 0 0 out hin hP
        cases out with
        | inl s'' =>
          simp only [Option.some.injEq, Prod.mk.injEq] at h
          rw [← h.1]
          exact hPout
        | inr t =>
          obtain ⟨s'', epR, epS, dn⟩ := t
          simp only at h
          refine collectOuter_preserves P hstep hep fuel _ s' bb h ?_
          cases dn with
          | false => simpa [stateOf] using hPout
          | true => exact hep s'' epR epS (by simpa [stateOf] using hPout)
    · rw [if_neg hg] at h
      simp only [Option.some.injEq, Prod.mk.injEq] at h
      rw [← h.1]
      exact hP

/-- Claim C7: a `False` callback answer (and only `False`: `None` and
`True` mean continue) aborts before the environment step and returns
`(0.0, total_steps, total_episodes, None, False)`, where `total_steps`
counts exactly the completed steps (one environment step per counted
step: `rawTrace.length = total_steps`, and the aborting call carried
index `total_steps`, i.e. it preceded step number `total_steps + 1`);
when the callback never answers `False`, the returned flag is `True`. -/
theorem callback_stop_contract {cfg : Config} {orc : Oracles}
    {nE nS : Int} {nt0 : Nat} {obs0 : ℚ} {fuel : Nat} {r : RolloutResult}
    (h : collect_rollouts cfg orc nE nS nt0 obs0 fuel = some r) :
    (r.continue_training = false →
       orc.callback r.total_steps = some false ∧ r.mean_reward = 0 ∧
       r.last_obs = none ∧ r.final.rawTrace.length = r.total_steps) ∧
    ((∀ k, orc.callback k ≠ some false) → r.continue_training = true) := by
  have hstep : ∀ s, s.rawTrace.length = s.total_steps →
      (collectStep cfg orc nS s).1.rawTrace.length =
        (collectStep cfg orc nS s).1.total_steps := by
    intro s hs
    simp [collectStep, hs]
  have hep : ∀ (s : LoopState) (a : ℚ) (b : Nat),
      s.rawTrace.length = s.total_steps →
      ({ s with total_episodes := s.total_episodes + 1,
                episode_rewards := s.episode_rewards ++ [a],
                episode_lengths := s.episode_lengths ++ [b] } :
        LoopState).rawTrace.length =
      ({ s with total_episodes := s.total_episodes + 1,
                episode_rewards := s.episode_rewards ++ [a],
                episode_lengths := s.episode_lengths ++ [b] } :
        LoopState).total_steps := by
    intro s a b hs
    simpa using hs
  obtain ⟨s, hcase | hcase⟩ := collect_rollouts_inv h
  · constructor
    · intro _
      have hcb := collectOuter_false_callback _ _ _ hcase.1
      have hinv : s.rawTrace.length = s.total_steps := by
        refine collectOuter_preserves (fun st => st.rawTrace.length = st.total_steps)
          hstep hep _ _ s false hcase.1 ?_
        simp [initState]
      rw [hcase.2]
      exact ⟨hcb, rfl, rfl, hinv⟩
    · intro hnever
      exact absurd (collectOuter_false_callback _ _ _ hcase.1) (hnever _)
  · constructor
    · intro hc
      rw [hcase.2] at hc
      simp at hc
    · intro _
      rw [hcase.2]

/-! ### Concrete fixtures for witnesses and counterexamples -/

/-- A minimal configuration: no SDE, no noise, no wrapper, a replay
buffer present. -/
def cfgPlain : Config :=
  { use_sde := false, use_sde_at_warmup := false, on_policy_exploration := false,
    sde_sample_freq := -1, learning_starts := 0, gamma := 1 / 2,
    low := -1, high := 1, has_vec_normalize := false,
    has_action_noise := false, has_replay_buffer := true }

/-- A benign environment that ends the episode at every step. -/
def orcPlain : Oracles :=
  { callback := fun _ => none
    sample := fun _ => 0
    predict := fun _ _ => 0
    noiseVal := fun _ => 0
    envStep := fun k _ => ⟨(k : ℚ) + 1, 1, true⟩
    origObs := fun k => (k : ℚ) / 2
    origReward := fun _ => 7
    vf := fun o => o }

/-- Like `orcPlain` but the second callback call answers `False`. -/
def orcStop : Oracles :=
  { orcPlain with callback := fun k => if k = 1 then some false else none }

/-- Witness for C7: with `n_steps = 5`, a `False` on the second callback
call aborts after exactly one completed step. -/
theorem callback_stop_contract_witness :
    collect_rollouts cfgPlain orcStop 1 5 0 0 10 =
      some ((collect_rollouts cfgPlain orcStop 1 5 0 0 10).getD default) ∧
    (orcStop.callback
        ((collect_rollouts cfgPlain orcStop 1 5 0 0 10).getD default).total_steps =
          some false ∧
      ((collect_rollouts cfgPlain orcStop 1 5 0 0 10).getD default).mean_reward = 0 ∧
      ((collect_rollouts cfgPlain orcStop 1 5 0 0 10).getD default).last_obs = none ∧
      ((collect_rollouts cfgPlain orcStop 1 5 0 0 10).getD
          default).final.rawTrace.length =
        ((collect_rollouts cfgPlain orcStop 1 5 0 0 10).getD default).total_steps) := by
  have h : collect_rollouts cfgPlain orcStop 1 5 0 0 10 =
      some ((collect_rollouts cfgPlain orcStop 1 5 0 0 10).getD default) := by
    with_unfolding_all decide
  exact ⟨h, (callback_stop_contract h).1 (by with_unfolding_all decide)⟩

/-! ### C3: the in-loop SDE resampling condition tests the budget
parameter, not the running step count -/

/-- SDE configuration with resample frequency 2 and the documented
default step budget `n_steps = -1`. -/
def cfgSde : Config :=
  { cfgPlain with use_sde := true, sde_sample_freq := 2,
                  has_replay_buffer := false }

/-- An environment whose first episode lasts exactly three steps. -/
def orcSde3 : Oracles :=
  { orcPlain with envStep := fun k _ => ⟨0, 0, decide (k = 2)⟩ }

/-- Claim C3 fails on the code: with `use_sde`, `sde_sample_freq = 2 > 0`
and the default budget `n_steps = -1`, a three-step rollout performs no
in-loop resample at all (`inLoopResets = []`), although the running step
count passes 2 (and 0), both divisible by the frequency.  The source
tests `n_steps % sde_sample_freq == 0` (base_class.py:778) — a constant
over the whole rollout, here `(-1) % 2 = 1 ≠ 0` — instead of the running
count, contradicting the parameter's documented "sample a new noise
matrix every n steps" behaviour. -/
theorem sde_resample_ignores_running_count :
    (collect_rollouts cfgSde orcSde3 1 (-1) 0 0 9).map
        (fun r => (r.total_steps, r.final.inLoopResets)) = some (3, []) ∧
      sdeResampleCond cfgSde (-1) = false ∧
      (0 < cfgSde.sde_sample_freq ∧ (2 : Int) % cfgSde.sde_sample_freq = 0) := by
  refine ⟨by with_unfolding_all decide, by with_unfolding_all decide, ?_, ?_⟩ <;>
    with_unfolding_all decide

/-! ### C2: what the buffer and the snapshot store -/

/-- SDE + on-policy-snapshot configuration with a replay buffer. -/
def cfgSnap : Config :=
  { cfgPlain with use_sde := true, on_policy_exploration := true }

/-- A policy whose output scales to `3`, outside `[-1, 1]`. -/
def orcSnap : Oracles :=
  { orcPlain with predict := fun _ _ => 3, envStep := fun _ _ => ⟨0, 1, true⟩ }

/-- Counterexample to claim C2 as stated: in a one-step rollout the
normalized action actually applied to the environment is the clipped
value `1` (which is also what the replay buffer stores), but the
snapshot stores the raw pre-clipping policy output `3`. -/
theorem snapshot_action_counterexample :
    (collect_rollouts cfgSnap orcSnap 1 (-1) 0 0 5).map
        (fun r => (r.final.rollout_data.map RolloutData.actions,
                   r.final.appliedActions,
                   r.final.buffer.map Transition.action)) =
      some (some [3], [1], [1]) ∧ (3 : ℚ) ≠ 1 := by
  constructor
  · with_unfolding_all decide
  · with_unfolding_all decide

/-- Claim C2 as amended: the replay buffer always stores exactly the
actions applied to the environment (normalized action after noise
injection and clipping, recorded in `appliedActions` at the `env.step`
call site), while the on-policy snapshot stores the scaled actions
before clipping and before noise injection (`scaledActions`). -/
theorem buffer_applied_snapshot_scaled {cfg : Config} {orc : Oracles}
    {nE nS : Int} {nt0 : Nat} {obs0 : ℚ} {fuel : Nat} {r : RolloutResult}
    (h : collect_rollouts cfg orc nE nS nt0 obs0 fuel = some r) :
    (cfg.has_replay_buffer = true →
       r.final.buffer.map Transition.action = r.final.appliedActions) ∧
    (∀ rd, r.final.rollout_data = some rd →
       rd.actions = r.final.scaledActions) := by
  have hstep : ∀ s,
      ((cfg.has_replay_buffer = true →
          s.buffer.map Transition.action = s.appliedActions) ∧
       (∀ rd, s.rollout_data = some rd → rd.actions = s.scaledActions)) →
      ((cfg.has_replay_buffer = true →
          (collectStep cfg orc nS s).1.buffer.map Transition.action =
            (collectStep cfg orc nS s).1.appliedActions) ∧
       (∀ rd, (collectStep cfg orc nS s).1.rollout_data = some rd →
          rd.actions = (collectStep cfg orc nS s).1.scaledActions)) := by
    intro s hP
    constructor
    · intro hbuf
      simp only [collectStep]
      rw [if_pos hbuf]
      by_cases hw : cfg.has_vec_normalize = true
      · rw [if_pos hw]
        simp [hP.1 hbuf]
      · rw [if_neg hw]
        simp [hP.1 hbuf]
    · intro rd hrd
      simp only [collectStep] at hrd ⊢
      cases hsd : s.rollout_data with
      | none => rw [hsd] at hrd; exact absurd hrd (by simp)
      | some rd0 =>
        rw [hsd] at hrd
        simp only [Option.some.injEq] at hrd
        rw [← hrd]
        simp [hP.2 rd0 hsd]
  have hep : ∀ (s : LoopState) (a : ℚ) (b : Nat),
      ((cfg.has_replay_buffer = true →
          s.buffer.map Transition.action = s.appliedActions) ∧
       (∀ rd, s.rollout_data = some rd → rd.actions = s.scaledActions)) →
      ((cfg.has_replay_buffer = true →
          ({ s with total_episodes := s.total_episodes + 1,
                    episode_rewards := s.episode_rewards ++ [a],
                    episode_lengths := s.episode_lengths ++ [b] } :
            LoopState).buffer.map Transition.action =
            ({ s with total_episodes := s.total_episodes + 1,
                      episode_rewards := s.episode_rewards ++ [a],
                      episode_lengths := s.episode_lengths ++ [b] } :
              LoopState).appliedActions) ∧
       (∀ rd, ({ s with total_episodes := s.total_episodes + 1,
                        episode_rewards := s.episode_rewards ++ [a],
                        episode_lengths := s.episode_lengths ++ [b] } :
            LoopState).rollout_data = some rd →
          rd.actions = ({ s with total_episodes := s.total_episodes + 1,
                                 episode_rewards := s.episode_rewards ++ [a],
                                 episode_lengths := s.episode_lengths ++ [b] } :
            LoopState).scaledActions)) := by
    intro s a b hP
    exact hP
  have hinit :
      (cfg.has_replay_buffer = true →
        (initState cfg orc nt0 obs0).buffer.map Transition.action =
          (initState cfg orc nt0 obs0).appliedActions) ∧
      (∀ rd, (initState cfg orc nt0 obs0).rollout_data = some rd →
        rd.actions = (initState cfg orc nt0 obs0).scaledActions) := by
    constructor
    · intro _; simp [initState]
    · intro rd hrd
      simp only [initState] at hrd ⊢
      split at hrd
      · simp only [Option.some.injEq] at hrd
        rw [← hrd]
      · exact absurd hrd (by simp)
  obtain ⟨s, hcase | hcase⟩ := collect_rollouts_inv h
  · have := collectOuter_preserves _ hstep hep _ _ s false hcase.1 hinit
    rw [hcase.2]
    exact this
  · have := collectOuter_preserves _ hstep hep _ _ s true hcase.1 hinit
    rw [hcase.2]
    exact this

/-- Witness for the amended C2 on the concrete one-step rollout: the
buffer's stored actions are exactly the applied ones, and the snapshot's
actions are exactly the pre-clipping scaled ones. -/
theorem buffer_applied_snapshot_scaled_witness :
    collect_rollouts cfgSnap orcSnap 1 (-1) 0 0 5 =
      some ((collect_rollouts cfgSnap orcSnap 1 (-1) 0 0 5).getD default) ∧
    ((collect_rollouts cfgSnap orcSnap 1 (-1) 0 0 5).getD
        default).final.buffer.map Transition.action =
      ((collect_rollouts cfgSnap orcSnap 1 (-1) 0 0 5).getD
        default).final.appliedActions ∧
    ((((collect_rollouts cfgSnap orcSnap 1 (-1) 0 0 5).getD
        default).final.rollout_data.getD default).actions =
      ((collect_rollouts cfgSnap orcSnap 1 (-1) 0 0 5).getD
        default).final.scaledActions) := by
  have h : collect_rollouts cfgSnap orcSnap 1 (-1) 0 0 5 =
      some ((collect_rollouts cfgSnap orcSnap 1 (-1) 0 0 5).getD default) := by
    with_unfolding_all decide
  refine ⟨h, (buffer_applied_snapshot_scaled h).1 (by decide), ?_⟩
  exact (buffer_applied_snapshot_scaled h).2 _ (by with_unfolding_all decide)

/-! ### C6: warm-up gating of action selection -/

/-- Claim C6: on every step, if the global step count at query time was
below `learning_starts` and it is not the case that SDE and the
warm-up-exploration flag are both set, the action was drawn uniformly
from the action space without querying the policy; otherwise the policy
was queried, with deterministic output requested exactly when SDE is
disabled. -/
theorem warmup_gating {cfg : Config} {orc : Oracles}
    {nE nS : Int} {nt0 : Nat} {obs0 : ℚ} {fuel : Nat} {r : RolloutResult}
    (h : collect_rollouts cfg orc nE nS nt0 obs0 fuel = some r) :
    ∀ q ∈ r.final.queries,
      (((q.1 : Int) < cfg.learning_starts ∧
          ¬(cfg.use_sde = true ∧ cfg.use_sde_at_warmup = true)) →
        q.2.isRandom = true) ∧
      (¬((q.1 : Int) < cfg.learning_starts ∧
          ¬(cfg.use_sde = true ∧ cfg.use_sde_at_warmup = true)) →
        q.2.detFlag = some (!cfg.use_sde)) := by
  have hstep : ∀ s,
      (∀ q ∈ s.queries,
        (((q.1 : Int) < cfg.learning_starts ∧
            ¬(cfg.use_sde = true ∧ cfg.use_sde_at_warmup = true)) →
          q.2.isRandom = true) ∧
        (¬((q.1 : Int) < cfg.learning_starts ∧
            ¬(cfg.use_sde = true ∧ cfg.use_sde_at_warmup = true)) →
          q.2.detFlag = some (!cfg.use_sde))) →
      (∀ q ∈ (collectStep cfg orc nS s).1.queries,
        (((q.1 : Int) < cfg.learning_starts ∧
            ¬(cfg.use_sde = true ∧ cfg.use_sde_at_warmup = true)) →
          q.2.isRandom = true) ∧
        (¬((q.1 : Int) < cfg.learning_starts ∧
            ¬(cfg.use_sde = true ∧ cfg.use_sde_at_warmup = true)) →
          q.2.detFlag = some (!cfg.use_sde))) := by
    intro s hP q hq
    simp only [collectStep, List.mem_append, List.mem_singleton] at hq
    rcases hq with hold | hnew
    · exact hP q hold
    · by_cases hw : warmupCond cfg s.num_timesteps = true
      · rw [hnew, if_pos hw]
        constructor
        · intro _; rfl
        · intro hn
          exact absurd ((warmupCond_iff cfg s.num_timesteps).mp hw) hn
      · rw [hnew, if_neg hw]
        constructor
        · intro hc
          exact absurd ((warmupCond_iff cfg s.num_timesteps).mpr hc) hw
        · intro _; rfl
  have hep : ∀ (s : LoopState) (a : ℚ) (b : Nat),
      (∀ q ∈ s.queries,
        (((q.1 : Int) < cfg.learning_starts ∧
            ¬(cfg.use_sde = true ∧ cfg.use_sde_at_warmup = true)) →
          q.2.isRandom = true) ∧
        (¬((q.1 : Int) < cfg.learning_starts ∧
            ¬(cfg.use_sde = true ∧ cfg.use_sde_at_warmup = true)) →
          q.2.detFlag = some (!cfg.use_sde))) →
      (∀ q ∈ ({ s with total_episodes := s.total_episodes + 1,
                       episode_rewards := s.episode_rewards ++ [a],
                       episode_lengths := s.episode_lengths ++ [b] } :
          LoopState).queries,
        (((q.1 : Int) < cfg.learning_starts ∧
            ¬(cfg.use_sde = true ∧ cfg.use_sde_at_warmup = true)) →
          q.2.isRandom = true) ∧
        (¬((q.1 : Int) < cfg.learning_starts ∧
            ¬(cfg.use_sde = true ∧ cfg.use_sde_at_warmup = true)) →
          q.2.detFlag = some (!cfg.use_sde))) := by
    intro s a b hP
    exact hP
  obtain ⟨s, hcase | hcase⟩ := collect_rollouts_inv h
  · have := collectOuter_preserves _ hstep hep _ _ s false hcase.1 (by simp [initState])
    rw [hcase.2]
    exact this
  · have := collectOuter_preserves _ hstep hep _ _ s true hcase.1 (by simp [initState])
    rw [hcase.2]
    exact this

/-! ### C9: the replay buffer receives unnormalized values -/

/-- Loop invariant for the replay-buffer contract: with a wrapper, every
stored transition holds the wrapper's original observation / next
observation / reward; without a wrapper, the raw stepped values; with no
buffer, nothing is stored. -/
def BufInv (cfg : Config) (orc : Oracles) (obs0 : ℚ) (s : LoopState) : Prop :=
  (cfg.has_vec_normalize = true → s.obs_ = orc.origObs s.total_steps) ∧
  (cfg.has_replay_buffer = true → cfg.has_vec_normalize = true →
    s.buffer.length = s.total_steps ∧
    ∀ j, j < s.buffer.length →
      (s.buffer.getD j default).obs = orc.origObs j ∧
      (s.buffer.getD j default).next_obs = orc.origObs (j + 1) ∧
      (s.buffer.getD j default).reward = orc.origReward j) ∧
  (cfg.has_replay_buffer = true → cfg.has_vec_normalize = false →
    s.buffer.length = s.total_steps ∧
    s.rawTrace.length = s.total_steps ∧
    s.obs = (if s.total_steps = 0 then obs0
             else (s.rawTrace.getD (s.total_steps - 1) default).new_obs) ∧
    ∀ j, j < s.buffer.length →
      (s.buffer.getD j default).obs =
        (if j = 0 then obs0 else (s.rawTrace.getD (j - 1) default).new_obs) ∧
      (s.buffer.getD j default).next_obs = (s.rawTrace.getD j default).new_obs ∧
      (s.buffer.getD j default).reward = (s.rawTrace.getD j default).reward) ∧
  (cfg.has_replay_buffer = false → s.buffer = [])

/-- The step counters, observation, trace and buffer fields of one
collection step, with the applied action and the environment answer
abstracted. -/
theorem collectStep_fields (cfg : Config) (orc : Oracles) (nS : Int) (s : LoopState) :
    ∃ (act : ℚ) (res : StepResult),
      (collectStep cfg orc nS s).1.num_timesteps = s.num_timesteps + 1 ∧
      (collectStep cfg orc nS s).1.total_steps = s.total_steps + 1 ∧
      (collectStep cfg orc nS s).1.obs = res.new_obs ∧
      (collectStep cfg orc nS s).1.obs_ =
        (if cfg.has_vec_normalize then orc.origObs (s.total_steps + 1) else s.obs_) ∧
      (collectStep cfg orc nS s).1.rawTrace = s.rawTrace ++ [res] ∧
      (collectStep cfg orc nS s).1.buffer =
        (if cfg.has_replay_buffer then
           if cfg.has_vec_normalize then
             s.buffer ++ [⟨s.obs_, orc.origObs (s.total_steps + 1), act,
                           orc.origReward s.total_steps, res.done⟩]
           else s.buffer ++ [⟨s.obs, res.new_obs, act, res.reward, res.done⟩]
         else s.buffer) :=
  ⟨_, _, rfl, rfl, rfl, rfl, rfl, rfl⟩

/-- `BufInv` is preserved by one collection step. -/
theorem collectStep_bufInv (cfg : Config) (orc : Oracles) (nS : Int)
    (obs0 : ℚ) (s : LoopState) (hP : BufInv cfg orc obs0 s) :
    BufInv cfg orc obs0 (collectStep cfg orc nS s).1 := by
  obtain ⟨act, res, hnt, hts, hobsn, hobsu, hrawT, hbufT⟩ := collectStep_fields cfg orc nS s
  obtain ⟨hobs, hA, hB, hC⟩ := hP
  refine ⟨?_, ?_, ?_, ?_⟩
  · intro hw
    rw [hobsu, hts, if_pos hw]
  · intro hbuf hw
    obtain ⟨hlen, hitems⟩ := hA hbuf hw
    rw [hbufT, hts, if_pos hbuf, if_pos hw]
    constructor
    · simp [hlen]
    · intro j hj
      simp only [List.length_append, List.length_singleton] at hj
      rcases Nat.lt_succ_iff_lt_or_eq.mp (by simpa using hj) with hjlt | hjeq
      · rw [List.getD_append _ _ _ _ hjlt]
        exact hitems j hjlt
      · subst hjeq
        rw [List.getD_append_right _ _ _ _ (le_refl _)]
        simp only [Nat.sub_self, List.getD_cons_zero]
        exact ⟨by rw [hobs hw, hlen], by rw [hlen], by rw [hlen]⟩
  · intro hbuf hw
    obtain ⟨hlen, hraw, hcur, hitems⟩ := hB hbuf hw
    rw [hbufT, hts, hrawT, hobsn, if_pos hbuf, if_neg (by simp [hw])]
    refine ⟨by simp [hlen], by simp [hraw], ?_, ?_⟩
    · rw [if_neg (Nat.succ_ne_zero _), Nat.add_sub_cancel,
        List.getD_append_right _ _ _ _ (by rw [hraw]), hraw]
      simp
    · intro j hj
      simp only [List.length_append, List.length_singleton] at hj
      rcases Nat.lt_succ_iff_lt_or_eq.mp (by simpa using hj) with hjlt | hjeq
      · rw [List.getD_append _ _ _ _ hjlt]
        obtain ⟨h1, h2, h3⟩ := hitems j hjlt
        have hjraw : j < s.rawTrace.length := by rw [hraw, ← hlen]; exact hjlt
        refine ⟨?_, ?_, ?_⟩
        · rw [h1]
          by_cases hj0 : j = 0
          · simp [hj0]
          · rw [if_neg hj0, if_neg hj0, List.getD_append _ _ _ _ (by omega)]
        · rw [h2, List.getD_append _ _ _ _ hjraw]
        · rw [h3, List.getD_append _ _ _ _ hjraw]
      · subst hjeq
        rw [List.getD_append_right _ _ _ _ (le_refl _)]
        simp only [Nat.sub_self, List.getD_cons_zero]
        refine ⟨?_, ?_, ?_⟩
        · rw [hcur, hlen]
          by_cases h0 : s.total_steps = 0
          · simp [h0, hlen]
          · rw [if_neg h0, if_neg h0, List.getD_append _ _ _ _ (by rw [hraw]; omega)]
        · rw [hlen, List.getD_append_right _ _ _ _ (by rw [hraw]), hraw]
          simp
        · rw [hlen, List.getD_append_right _ _ _ _ (by rw [hraw]), hraw]
          simp
  · intro hbuf
    rw [hbufT, if_neg (by simp [hbuf])]
    exact hC hbuf


/-- Claim C9: with a buffer and an active normalization wrapper, every
stored transition consists of the wrapper's reported original
observation, next observation and reward; without a wrapper the raw
stepped values are stored; without a buffer nothing is stored. -/
theorem replay_buffer_unnormalized {cfg : Config} {orc : Oracles}
    {nE nS : Int} {nt0 : Nat} {obs0 : ℚ} {fuel : Nat} {r : RolloutResult}
    (h : collect_rollouts cfg orc nE nS nt0 obs0 fuel = some r) :
    (cfg.has_replay_buffer = true → cfg.has_vec_normalize = true →
       ∀ j, j < r.final.buffer.length →
         (r.final.buffer.getD j default).obs = orc.origObs j ∧
         (r.final.buffer.getD j default).next_obs = orc.origObs (j + 1) ∧
         (r.final.buffer.getD j default).reward = orc.origReward j) ∧
    (cfg.has_replay_buffer = true → cfg.has_vec_normalize = false →
       ∀ j, j < r.final.buffer.length →
         (r.final.buffer.getD j default).obs =
           (if j = 0 then obs0 else (r.final.rawTrace.getD (j - 1) default).new_obs) ∧
         (r.final.buffer.getD j default).next_obs =
           (r.final.rawTrace.getD j default).new_obs ∧
         (r.final.buffer.getD j default).reward =
           (r.final.rawTrace.getD j default).reward) ∧
    (cfg.has_replay_buffer = false → r.final.buffer = []) := by
  have hstep : ∀ s, BufInv cfg orc obs0 s →
      BufInv cfg orc obs0 (collectStep cfg orc nS s).1 :=
    fun s => collectStep_bufInv cfg orc nS obs0 s
  have hep : ∀ (s : LoopState) (a : ℚ) (b : Nat), BufInv cfg orc obs0 s →
      BufInv cfg orc obs0
        { s with total_episodes := s.total_episodes + 1,
                 episode_rewards := s.episode_rewards ++ [a],
                 episode_lengths := s.episode_lengths ++ [b] } := by
    intro s a b hP
    exact hP
  have hinit : BufInv cfg orc obs0 (initState cfg orc nt0 obs0) := by
    refine ⟨?_, ?_, ?_, ?_⟩
    · intro hw; simp [initState, hw]
    · intro _ _
      refine ⟨by simp [initState], ?_⟩
      intro j hj
      simp [initState] at hj
    · intro _ _
      refine ⟨by simp [initState], by simp [initState], by simp [initState], ?_⟩
      intro j hj
      simp [initState] at hj
    · intro _; simp [initState]
  obtain ⟨s, hcase | hcase⟩ := collect_rollouts_inv h
  · have hfin := collectOuter_preserves _ hstep hep _ _ s false hcase.1 hinit
    rw [hcase.2]
    exact ⟨fun hb hw => (hfin.2.1 hb hw).2, fun hb hw => (hfin.2.2.1 hb hw).2.2.2,
      hfin.2.2.2⟩
  · have hfin := collectOuter_preserves _ hstep hep _ _ s true hcase.1 hinit
    rw [hcase.2]
    exact ⟨fun hb hw => (hfin.2.1 hb hw).2, fun hb hw => (hfin.2.2.1 hb hw).2.2.2,
      hfin.2.2.2⟩

/-! ### Remaining witnesses on concrete runs -/

/-- Witness for C1: budgets `n_steps = 2`, `n_episodes = 1`; the normal
return has both `total_steps ≥ 2` and `total_episodes ≥ 1`. -/
theorem normal_return_meets_both_budgets_witness :
    collect_rollouts cfgPlain orcPlain 1 2 0 0 10 =
      some ((collect_rollouts cfgPlain orcPlain 1 2 0 0 10).getD default) ∧
    ((collect_rollouts cfgPlain orcPlain 1 2 0 0 10).getD
      default).continue_training = true ∧
    (0 : Int) < 2 ∧ (0 : Int) < 1 ∧
    ((2 : Int) ≤
        (((collect_rollouts cfgPlain orcPlain 1 2 0 0 10).getD
          default).total_steps : Int) ∧
      (1 : Int) ≤
        (((collect_rollouts cfgPlain orcPlain 1 2 0 0 10).getD
          default).total_episodes : Int)) := by
  have h : collect_rollouts cfgPlain orcPlain 1 2 0 0 10 =
      some ((collect_rollouts cfgPlain orcPlain 1 2 0 0 10).getD default) := by
    with_unfolding_all decide
  exact ⟨h, by with_unfolding_all decide, by decide, by decide,
    normal_return_meets_both_budgets h (by with_unfolding_all decide)
      (by decide) (by decide)⟩

/-- Witness for C5 on a one-step snapshot-producing rollout. -/
theorem advantage_eq_return_sub_value_witness :
    collect_rollouts cfgSnap orcSnap 1 (-1) 0 0 5 =
      some ((collect_rollouts cfgSnap orcSnap 1 (-1) 0 0 5).getD default) ∧
    ((collect_rollouts cfgSnap orcSnap 1 (-1) 0 0 5).getD default).processed =
      some (((collect_rollouts cfgSnap orcSnap 1 (-1) 0 0 5).getD
        default).processed.getD default) ∧
    (0 < (((collect_rollouts cfgSnap orcSnap 1 (-1) 0 0 5).getD
        default).processed.getD default).advantage.length) ∧
    ((((collect_rollouts cfgSnap orcSnap 1 (-1) 0 0 5).getD
        default).processed.getD default).advantage.getD 0 0 =
      (((collect_rollouts cfgSnap orcSnap 1 (-1) 0 0 5).getD
        default).processed.getD default).returns.getD 0 0 -
        (((collect_rollouts cfgSnap orcSnap 1 (-1) 0 0 5).getD
          default).processed.getD default).data.values.getD 0 0) := by
  have h : collect_rollouts cfgSnap orcSnap 1 (-1) 0 0 5 =
      some ((collect_rollouts cfgSnap orcSnap 1 (-1) 0 0 5).getD default) := by
    with_unfolding_all decide
  have hp : ((collect_rollouts cfgSnap orcSnap 1 (-1) 0 0 5).getD
      default).processed =
        some (((collect_rollouts cfgSnap orcSnap 1 (-1) 0 0 5).getD
          default).processed.getD default) := by
    with_unfolding_all decide
  have hlen : 0 < (((collect_rollouts cfgSnap orcSnap 1 (-1) 0 0 5).getD
      default).processed.getD default).advantage.length := by
    with_unfolding_all decide
  exact ⟨h, hp, hlen, advantage_eq_return_sub_value h hp 0 hlen⟩

/-- Warm-up configuration: `learning_starts = 10`, SDE disabled. -/
def cfgWarm : Config := { cfgPlain with learning_starts := 10 }

/-- Witness for C6: with `learning_starts = 10` and SDE off, the first
recorded action query is a uniform random draw, not a policy query. -/
theorem warmup_gating_witness :
    collect_rollouts cfgWarm orcPlain 1 2 0 0 10 =
      some ((collect_rollouts cfgWarm orcPlain 1 2 0 0 10).getD default) ∧
    (((collect_rollouts cfgWarm orcPlain 1 2 0 0 10).getD
        default).final.queries.getD 0 default ∈
      ((collect_rollouts cfgWarm orcPlain 1 2 0 0 10).getD
        default).final.queries) ∧
    (((collect_rollouts cfgWarm orcPlain 1 2 0 0 10).getD
        default).final.queries.getD 0 default).2.isRandom = true := by
  have h : collect_rollouts cfgWarm orcPlain 1 2 0 0 10 =
      some ((collect_rollouts cfgWarm orcPlain 1 2 0 0 10).getD default) := by
    with_unfolding_all decide
  have hmem : ((collect_rollouts cfgWarm orcPlain 1 2 0 0 10).getD
      default).final.queries.getD 0 default ∈
        ((collect_rollouts cfgWarm orcPlain 1 2 0 0 10).getD
          default).final.queries := by
    with_unfolding_all decide
  exact ⟨h, hmem, (warmup_gating h _ hmem).1 (by with_unfolding_all decide)⟩

/-- Wrapper configuration for C9. -/
def cfgWrap : Config := { cfgPlain with has_vec_normalize := true }

/-- Witness for C9: with an active wrapper, the first stored transition
holds the wrapper's original observations and reward. -/
theorem replay_buffer_unnormalized_witness :
    collect_rollouts cfgWrap orcPlain 1 2 0 0 10 =
      some ((collect_rollouts cfgWrap orcPlain 1 2 0 0 10).getD default) ∧
    cfgWrap.has_replay_buffer = true ∧ cfgWrap.has_vec_normalize = true ∧
    (0 < ((collect_rollouts cfgWrap orcPlain 1 2 0 0 10).getD
      default).final.buffer.length) ∧
    ((((collect_rollouts cfgWrap orcPlain 1 2 0 0 10).getD
          default).final.buffer.getD 0 default).obs = orcPlain.origObs 0 ∧
      (((collect_rollouts cfgWrap orcPlain 1 2 0 0 10).getD
          default).final.buffer.getD 0 default).next_obs = orcPlain.origObs 1 ∧
      (((collect_rollouts cfgWrap orcPlain 1 2 0 0 10).getD
          default).final.buffer.getD 0 default).reward = orcPlain.origReward 0) := by
  have h : collect_rollouts cfgWrap orcPlain 1 2 0 0 10 =
      some ((collect_rollouts cfgWrap orcPlain 1 2 0 0 10).getD default) := by
    with_unfolding_all decide
  have hlen : 0 < ((collect_rollouts cfgWrap orcPlain 1 2 0 0 10).getD
      default).final.buffer.length := by
    with_unfolding_all decide
  exact ⟨h, rfl, rfl, hlen,
    (replay_buffer_unnormalized h).1 rfl rfl 0 hlen⟩

/-- Witness for C10 on the callback-stop run: no `on_rollout_end` call,
no post-processing, `None` in the observation slot. -/
theorem stop_skips_rollout_end_witness :
    collect_rollouts cfgPlain orcStop 1 5 0 0 10 =
      some ((collect_rollouts cfgPlain orcStop 1 5 0 0 10).getD default) ∧
    ((collect_rollouts cfgPlain orcStop 1 5 0 0 10).getD
      default).continue_training = false ∧
    (((collect_rollouts cfgPlain orcStop 1 5 0 0 10).getD
        default).onRolloutEndCalls = 0 ∧
      ((collect_rollouts cfgPlain orcStop 1 5 0 0 10).getD
        default).processed = none ∧
      ((collect_rollouts cfgPlain orcStop 1 5 0 0 10).getD
        default).last_obs = none) := by
  have h : collect_rollouts cfgPlain orcStop 1 5 0 0 10 =
      some ((collect_rollouts cfgPlain orcStop 1 5 0 0 10).getD default) := by
    with_unfolding_all decide
  have hc : ((collect_rollouts cfgPlain orcStop 1 5 0 0 10).getD
      default).continue_training = false := by
    with_unfolding_all decide
  exact ⟨h, hc, (stop_skips_rollout_end_and_postprocessing h).1 hc⟩

end Torchy
